import Mathlib

/-!
Verification of the encrypted cookie-session codec (`src/index.ts`,
class `EncryptedSession`).

The repository's own code is the session façade: `get`, `mustGet`, `set`,
`delete`.  Its collaborators — the msgpack binary codec, base64, and the
WebCrypto AES-256-GCM / PBKDF2 primitives — are external libraries, so they
are modelled here as ideal functionalities following the contracts the spec
gives for them (reversible self-describing serialization; authenticated
encryption whose `open` fails on any tampered ciphertext, wrong key or wrong
iv).  The façade itself is embedded branch for branch from the source.

State: the only mutable state is the transport cookie jar entry for the
session's cookie name, modelled as `Option Wire` (absent, or a cookie
string).  `mustGet`/`get` are state transformers returning the result
together with the jar state after their side effects.
-/

set_option autoImplicit false

/-- A decoded msgpack value as seen by the JavaScript code: the payload
domain for session values and for the inner expirable box.  `map` models the
decoded JS object (string keys, already deduplicated by decoding). -/
inductive MPVal where
  | nil
  | bool (b : Bool)
  | int (n : Int)
  | str (s : String)
  | bytes (bs : List Nat)
  | arr (vs : List MPVal)
  | map (kvs : List (String × MPVal))

/-- JavaScript falsiness of a decoded msgpack value: `null`/`undefined`,
`false`, `0`, and the empty string are falsy; objects, arrays and byte
strings (also empty ones) are truthy. -/
def MPVal.falsy : MPVal → Bool
  | .nil => true
  | .bool b => !b
  | .int n => n == 0
  | .str s => s == ""
  | .bytes _ => false
  | .arr _ => false
  | .map _ => false

/-- First binding of a key in a decoded-object field list. -/
def lookupKey : List (String × MPVal) → String → Option MPVal
  | [], _ => none
  | (k, v) :: rest, key => if k == key then some v else lookupKey rest key

/-- JavaScript property access `v.key` on a decoded value: `some` when `v` is
an object with that key, `none` (i.e. `undefined`) otherwise. -/
def MPVal.getField : MPVal → String → Option MPVal
  | .map kvs, key => lookupKey kvs key
  | _, _ => none

/-- Modelled from the spec: a ciphertext byte string of the AES-256-GCM AEAD
(spec §4.2).  `sealed secret salt iv pt` is a genuine ciphertext produced by
`encrypt` under the key `PBKDF2(secret, salt)` and nonce `iv`, over the
msgpack encoding of `pt`; the key is represented by the pair
`(secret, salt)`, since PBKDF2 is modelled as collision-free.  `corrupt n` is
any byte string that is not a genuine ciphertext — in particular any
bit-flipped variant of one — which per the spec contract fails tag
verification under every key. -/
inductive Ciphertext where
  | sealed (secret : String) (salt : List Nat) (iv : List Nat) (pt : MPVal)
  | corrupt (n : Nat)

/-- A `Uint8Array` value: either plain bytes (salts, ivs, random data) or the
bytes of an AEAD ciphertext. -/
inductive ByteStr where
  | raw (bs : List Nat)
  | cipher (c : Ciphertext)

/-- Modelled from the spec: `crypto.subtle.decrypt` with the key derived from
`(secret, salt)` and nonce `iv` (spec §4.2): it recovers the plaintext of a
genuine ciphertext sealed under exactly that secret, salt and iv, and fails
(`none`, the promise rejection) on a corrupted box, plain bytes, a wrong
secret, a wrong salt, or a wrong iv. -/
def decrypt (secret : String) (salt iv enc : ByteStr) : Option MPVal :=
  match enc, salt, iv with
  | .cipher (.sealed s sa i pt), .raw saltB, .raw ivB =>
      if s = secret ∧ sa = saltB ∧ i = ivB then some pt else none
  | _, _, _ => none

/-- The value of one field of the decoded outer box, as the four `instanceof
Uint8Array` / property-access checks in `mustGet` see it: missing
(`undefined`), a `Uint8Array`, or present with some other type. -/
inductive JField where
  | undef
  | bytes (b : ByteStr)
  | nonbytes (v : MPVal)

/-- The msgpack decoding of a cookie value, as consumed through the
`_EncryptedBox` field accesses: a falsy value (`null`, `0`, `""`, `false`),
or anything truthy, characterised by what its `salt`, `iv` and `enc`
properties yield. -/
inductive OuterVal where
  | falsy
  | obj (salt iv enc : JField)

/-- A cookie string for the session's name, characterised by its decoding:
the empty string (falsy, treated as no cookie), a string whose msgpack
decoding throws, or a well-formed base64+msgpack encoding of an outer value
(the text encoding is reversible per spec §4.3, so it is left implicit). -/
inductive Wire where
  | emptyString
  | junk (n : Nat)
  | enc (v : OuterVal)

/-- The typed failures of `mustGet`, one per `throw` site in the source (plus
the two propagated library failures: msgpack decode throwing, and
`crypto.subtle.decrypt` rejecting). -/
inductive SessionError where
  | notFoundCookie
  | msgpackFailed
  | notFoundBox
  | malformedIv
  | malformedEnc
  | malformedSalt
  | decryptFailed
  | notFoundInner
  | malformedExp
  | expired
  | malformedVal
deriving DecidableEq

/-- The constructor parameters of `EncryptedSession` that the codec reads:
the long-term secret (`rootKeyRaw`) and the two expiry-relevant cookie
options.  `maxAge` is in seconds; `expires` is the `Date` as epoch
milliseconds (`Date#getTime`).  The hono context and cookie name select the
jar entry and are left implicit. -/
structure Handle where
  secret : String
  maxAge : Option Int
  expires : Option Int

/-- `Number.MAX_SAFE_INTEGER`, the never-expires sentinel. -/
def maxSafeInteger : Int := 9007199254740991

/-- Truthiness of `this.cookieOptions?.maxAge`: present and nonzero. -/
def maxAgeTruthy : Option Int → Bool
  | some m => m != 0
  | none => false

/-- The `expires`-or-sentinel fallback of the conditional chain in `set`:
`this.cookieOptions?.expires ? expires.getTime() : Number.MAX_SAFE_INTEGER`
(a `Date` object is always truthy). -/
def expiresFallback (h : Handle) : Int :=
  match h.expires with
  | some e => e
  | none => maxSafeInteger

/-- The `expiresAt` computation at the top of `set` (source lines 150-154). -/
def computeExpiresAt (h : Handle) (now : Int) : Int :=
  match h.maxAge with
  | some m => if m ≠ 0 then now + m * 1000 else expiresFallback h
  | none => expiresFallback h

/-- `EncryptedSession.set` (source lines 149-177): build the inner expirable
box `{exp, val}`, seal it under the key derived from the secret and the
fresh `salt` with the fresh `iv`, and encode the outer box `{iv, salt, enc}`
into the cookie string.  The randomness (`salt`, `iv`) and the clock reading
(`now`) are explicit parameters; the return value is the cookie string
written to the jar. -/
def EncryptedSession.set (h : Handle) (now : Int) (salt iv : List Nat)
    (value : MPVal) : Wire :=
  let expiresAt := computeExpiresAt h now
  let expirableBox : MPVal := .map [("exp", .int expiresAt), ("val", value)]
  let encrypted : Ciphertext := .sealed h.secret salt iv expirableBox
  Wire.enc (.obj (.bytes (.raw salt)) (.bytes (.raw iv))
    (.bytes (.cipher encrypted)))

/-- `EncryptedSession.delete` (source lines 182-184): ask the transport to
remove the cookie. -/
def EncryptedSession.delete (_st : Option Wire) : Option Wire := none

/-- The tail of `mustGet` after a successful decryption (source lines
125-142): msgpack-decode the plaintext as `_ExpirableBox`, check falsiness,
check `typeof exp === "number"`, check expiry (deleting the cookie and
failing when expired), and reject a falsy `val`. -/
def processExpirable (now : Int) (st : Option Wire) (pt : MPVal) :
    Except SessionError MPVal × Option Wire :=
  if pt.falsy then (.error .notFoundInner, st)
  else
    match pt.getField "exp" with
    | some (.int exp) =>
      if exp < now then (.error .expired, EncryptedSession.delete st)
      else
        match pt.getField "val" with
        | some v => if v.falsy then (.error .malformedVal, st) else (.ok v, st)
        | none => (.error .malformedVal, st)
    | _ => (.error .malformedExp, st)

/-- `EncryptedSession.mustGet` (source lines 96-143): read the cookie, decode
the outer box, check that `iv`, `enc`, `salt` are `Uint8Array`s (in that
order, and with no length checks), decrypt, and hand the plaintext to the
expirable-box validation.  Returns the result together with the jar state
after the call. -/
def EncryptedSession.mustGet (h : Handle) (now : Int) (st : Option Wire) :
    Except SessionError MPVal × Option Wire :=
  match st with
  | none => (.error .notFoundCookie, st)
  | some Wire.emptyString => (.error .notFoundCookie, st)
  | some (Wire.junk _) => (.error .msgpackFailed, st)
  | some (Wire.enc .falsy) => (.error .notFoundBox, st)
  | some (Wire.enc (.obj saltF ivF encF)) =>
    match ivF with
    | .bytes ivB =>
      match encF with
      | .bytes encB =>
        match saltF with
        | .bytes saltB =>
          match decrypt h.secret saltB ivB encB with
          | none => (.error .decryptFailed, st)
          | some pt => processExpirable now st pt
        | _ => (.error .malformedSalt, st)
      | _ => (.error .malformedEnc, st)
    | _ => (.error .malformedIv, st)

/-- `EncryptedSession.get` (source lines 84-90): `mustGet` with every failure
collapsed to `null`. -/
def EncryptedSession.get (h : Handle) (now : Int) (st : Option Wire) :
    Option MPVal × Option Wire :=
  match EncryptedSession.mustGet h now st with
  | (Except.ok v, st') => (some v, st')
  | (Except.error _, st') => (none, st')

/-- An authentic cookie for handle `h`: the outer box carries `salt` and
`iv` and a ciphertext genuinely sealed under `h`'s secret with that salt and
iv, over the inner box `{exp := e, val := v}`.  `EncryptedSession.set`
produces exactly this shape with `e = computeExpiresAt`. -/
def authenticWire (h : Handle) (salt iv : List Nat) (e : Int) (v : MPVal) :
    Wire :=
  Wire.enc (.obj (.bytes (.raw salt)) (.bytes (.raw iv))
    (.bytes (.cipher (.sealed h.secret salt iv
      (.map [("exp", .int e), ("val", v)])))))

/-- The `exp` field of the inner box sealed inside a cookie value, when the
cookie is an authentic envelope. -/
def Wire.innerExp : Wire → Option Int
  | .enc (.obj _ _ (.bytes (.cipher (.sealed _ _ _ pt)))) =>
      match pt.getField "exp" with
      | some (.int e) => some e
      | _ => none
  | _ => none

/-- Modelled from the spec (amended sentence of §4.4): the absolute expiry
is `now + maxAge*1000` when a nonzero max-age attribute is configured, else
the configured absolute-expiry attribute in epoch milliseconds, else the
maximum representable instant. -/
def specExpiry (maxAge expires : Option Int) (now : Int) : Int :=
  match maxAge with
  | some m =>
      if m ≠ 0 then now + m * 1000
      else match expires with
        | some e => e
        | none => maxSafeInteger
  | none =>
      match expires with
      | some e => e
      | none => maxSafeInteger

/-! ### Helper lemmas shared by several claims -/

/-- The read path changes the jar only in the expired branch: either the
result is the expired error and the state is the deleted jar, or the result
is something else and the state is untouched. -/
theorem processExpirable_state (now : Int) (st : Option Wire) (pt : MPVal) :
    ((processExpirable now st pt).1 = Except.error SessionError.expired
      ∧ (processExpirable now st pt).2 = EncryptedSession.delete st)
    ∨ ((processExpirable now st pt).1 ≠ Except.error SessionError.expired
      ∧ (processExpirable now st pt).2 = st) := by
  unfold processExpirable
  repeat' split
  all_goals simp_all

/-- Same case split lifted to `mustGet`. -/
theorem mustGet_state (h : Handle) (now : Int) (st : Option Wire) :
    ((EncryptedSession.mustGet h now st).1 = Except.error SessionError.expired
      ∧ (EncryptedSession.mustGet h now st).2 = EncryptedSession.delete st)
    ∨ ((EncryptedSession.mustGet h now st).1 ≠ Except.error SessionError.expired
      ∧ (EncryptedSession.mustGet h now st).2 = st) := by
  unfold EncryptedSession.mustGet
  repeat' split
  all_goals first
    | exact processExpirable_state now _ _
    | simp_all

/-- `get` is `mustGet` with the error detail discarded; the jar state is
passed through unchanged. -/
theorem get_mustGet (h : Handle) (now : Int) (st : Option Wire) :
    (EncryptedSession.get h now st).1
      = (EncryptedSession.mustGet h now st).1.toOption
    ∧ (EncryptedSession.get h now st).2
      = (EncryptedSession.mustGet h now st).2 := by
  unfold EncryptedSession.get
  rcases hm : EncryptedSession.mustGet h now st with ⟨r, s⟩
  cases r <;> simp [Except.toOption]

/-- `set` writes exactly an authentic envelope whose inner expiry is the
computed `expiresAt`. -/
theorem set_eq_authenticWire (h : Handle) (now : Int) (salt iv : List Nat)
    (v : MPVal) :
    EncryptedSession.set h now salt iv v
      = authenticWire h salt iv (computeExpiresAt h now) v := rfl

/-- Reading an authentic envelope: expired when `e < now`, malformed when
the payload is falsy, the payload otherwise. -/
theorem mustGet_authentic (h : Handle) (now : Int) (salt iv : List Nat)
    (e : Int) (v : MPVal) :
    EncryptedSession.mustGet h now (some (authenticWire h salt iv e v))
      = if e < now then (Except.error SessionError.expired, none)
        else if v.falsy then
          (Except.error SessionError.malformedVal,
            some (authenticWire h salt iv e v))
        else (Except.ok v, some (authenticWire h salt iv e v)) := by
  unfold EncryptedSession.mustGet authenticWire decrypt processExpirable
    EncryptedSession.delete
  simp [MPVal.getField, lookupKey, MPVal.falsy]

/-! ### C1 — round trip -/

/-- C1, counterexample to the claim as stated: the claim quantifies over
every payload value, but for the falsy payload `0` (no expiry configured, so
the read is well before the computed expiry) `set` then `get` returns `null`
rather than the value that was set. -/
theorem roundTrip_cex :
    (EncryptedSession.get ⟨"k", none, none⟩ 5
      (some (EncryptedSession.set ⟨"k", none, none⟩ 0 [1] [2]
        (MPVal.int 0)))).1 = none := by rfl

/-- C1 (amended): for every payload value whose decoded form is truthy
(non-falsy) and every expiry configuration, `set` followed by `get` on a
handle with the same secret and cookie name, read before the computed expiry
instant, returns a value equal to the one set. -/
theorem roundTrip (h : Handle) (now now' : Int) (salt iv : List Nat)
    (v : MPVal) (hv : v.falsy = false)
    (hexp : ¬ computeExpiresAt h now < now') :
    (EncryptedSession.get h now'
      (some (EncryptedSession.set h now salt iv v))).1 = some v := by
  have hg := (get_mustGet h now' (some (EncryptedSession.set h now salt iv v))).1
  rw [hg, set_eq_authenticWire, mustGet_authentic, if_neg hexp]
  simp [hv, Except.toOption]

/-- C1, witness: a concrete truthy payload round-trips. -/
theorem roundTrip_witness :
    (MPVal.str "x").falsy = false
    ∧ ¬ computeExpiresAt ⟨"k", none, none⟩ 0 < 5
    ∧ (EncryptedSession.get ⟨"k", none, none⟩ 5
        (some (EncryptedSession.set ⟨"k", none, none⟩ 0 [1] [2]
          (MPVal.str "x")))).1 = some (MPVal.str "x") :=
  ⟨rfl, by decide,
    roundTrip ⟨"k", none, none⟩ 0 5 [1] [2] (MPVal.str "x") rfl (by decide)⟩

/-! ### C2 — tamper detection -/

/-- C2: a cookie produced by `set` is the authentic envelope (first
conjunct); replacing its `enc` bytes by any tampered (non-genuine)
ciphertext — in particular any bit-flipped variant — or substituting
different `salt` or `iv` bytes, makes `mustGet` fail with the decryption
(authentication) error; it never returns a value. -/
theorem tamperDetection (h : Handle) (now now' : Int)
    (salt iv salt' iv' : List Nat) (n : Nat) (v : MPVal)
    (hs : salt' ≠ salt) (hi : iv' ≠ iv) :
    EncryptedSession.set h now salt iv v
      = Wire.enc (.obj (.bytes (.raw salt)) (.bytes (.raw iv))
          (.bytes (.cipher (.sealed h.secret salt iv
            (.map [("exp", .int (computeExpiresAt h now)), ("val", v)])))))
    ∧ (EncryptedSession.mustGet h now'
        (some (Wire.enc (.obj (.bytes (.raw salt)) (.bytes (.raw iv))
          (.bytes (.cipher (.corrupt n))))))).1
      = Except.error SessionError.decryptFailed
    ∧ (EncryptedSession.mustGet h now'
        (some (Wire.enc (.obj (.bytes (.raw salt')) (.bytes (.raw iv))
          (.bytes (.cipher (.sealed h.secret salt iv
            (.map [("exp", .int (computeExpiresAt h now)), ("val", v)])))))))).1
      = Except.error SessionError.decryptFailed
    ∧ (EncryptedSession.mustGet h now'
        (some (Wire.enc (.obj (.bytes (.raw salt)) (.bytes (.raw iv'))
          (.bytes (.cipher (.sealed h.secret salt iv
            (.map [("exp", .int (computeExpiresAt h now)), ("val", v)])))))))).1
      = Except.error SessionError.decryptFailed := by
  refine ⟨rfl, rfl, ?_, ?_⟩
  · simp only [EncryptedSession.mustGet, decrypt]
    rw [if_neg]
    rintro ⟨-, h2, -⟩
    exact hs h2.symm
  · simp only [EncryptedSession.mustGet, decrypt]
    rw [if_neg]
    rintro ⟨-, -, h3⟩
    exact hi h3.symm

/-- C2, witness. -/
theorem tamperDetection_witness :
    ([3] : List Nat) ≠ [1] ∧ ([4] : List Nat) ≠ [2]
    ∧ (EncryptedSession.mustGet ⟨"k", none, none⟩ 0
        (some (Wire.enc (.obj (.bytes (.raw [1])) (.bytes (.raw [2]))
          (.bytes (.cipher (.corrupt 0))))))).1
      = Except.error SessionError.decryptFailed :=
  ⟨by decide, by decide,
    (tamperDetection ⟨"k", none, none⟩ 0 0 [1] [2] [3] [4] 0 (MPVal.str "x")
      (by decide) (by decide)).2.1⟩

/-! ### C3 — pre-decryption validation -/

/-- The expirable-box stage never reports the outer-box malformedness
errors. -/
theorem processExpirable_not_outer (now : Int) (st : Option Wire)
    (pt : MPVal) :
    (processExpirable now st pt).1 ≠ Except.error SessionError.malformedSalt
    ∧ (processExpirable now st pt).1 ≠ Except.error SessionError.malformedIv
    ∧ (processExpirable now st pt).1
        ≠ Except.error SessionError.malformedEnc := by
  unfold processExpirable
  repeat' split
  all_goals simp_all

/-- C3, counterexample: the claim says a decoded outer box whose salt is not
16 bytes (or iv not 12 bytes) is rejected as malformed before decryption,
but `mustGet` performs no length checks: with a 15-byte salt and a 1-byte iv
an authentic envelope is not rejected at all — decryption is attempted and
the read succeeds. -/
theorem lengthValidation_cex :
    ([0, 1, 2, 3, 4, 5, 6, 7, 8, 9, 10, 11, 12, 13, 14] : List Nat).length
        ≠ 16
    ∧ ([2] : List Nat).length ≠ 12
    ∧ (EncryptedSession.mustGet ⟨"k", none, none⟩ 0
        (some (authenticWire ⟨"k", none, none⟩
          [0, 1, 2, 3, 4, 5, 6, 7, 8, 9, 10, 11, 12, 13, 14] [2] 5
          (MPVal.str "x")))).1
      = Except.ok (MPVal.str "x") :=
  ⟨by decide, by decide, by rfl⟩

/-- C3 (amended): the validation before the decryption attempt checks only
that `salt`, `iv` and `enc` are byte strings (`Uint8Array`s); it performs no
length check, so when all three fields are byte strings — of whatever
lengths — `mustGet` never reports the outer box malformed. -/
theorem lengthValidation (h : Handle) (now : Int) (saltB ivB encB : ByteStr) :
    (EncryptedSession.mustGet h now
        (some (Wire.enc (.obj (.bytes saltB) (.bytes ivB) (.bytes encB))))).1
      ≠ Except.error SessionError.malformedSalt
    ∧ (EncryptedSession.mustGet h now
        (some (Wire.enc (.obj (.bytes saltB) (.bytes ivB) (.bytes encB))))).1
      ≠ Except.error SessionError.malformedIv
    ∧ (EncryptedSession.mustGet h now
        (some (Wire.enc (.obj (.bytes saltB) (.bytes ivB) (.bytes encB))))).1
      ≠ Except.error SessionError.malformedEnc := by
  simp only [EncryptedSession.mustGet]
  rcases hd : decrypt h.secret saltB ivB encB with _ | pt
  · simp
  · exact processExpirable_not_outer now _ pt

/-! ### C4 — expiry triggers deletion -/

/-- C4: whenever `mustGet` fails with the expired error, it has invoked the
cookie-deletion side effect, and a subsequent read with no intervening write
fails with the not-found error rather than the expired one. -/
theorem expiredTriggersDeletion (h : Handle) (now now' : Int)
    (st : Option Wire)
    (hexp : (EncryptedSession.mustGet h now st).1
      = Except.error SessionError.expired) :
    (EncryptedSession.mustGet h now st).2 = EncryptedSession.delete st
    ∧ (EncryptedSession.mustGet h now'
        (EncryptedSession.mustGet h now st).2).1
      = Except.error SessionError.notFoundCookie := by
  rcases mustGet_state h now st with ⟨-, h2⟩ | ⟨h1, -⟩
  · refine ⟨h2, ?_⟩
    rw [h2]
    rfl
  · exact absurd hexp h1

/-- C4, witness. -/
theorem expiredTriggersDeletion_witness :
    (EncryptedSession.mustGet ⟨"k", none, none⟩ 5
        (some (authenticWire ⟨"k", none, none⟩ [1] [2] 0 (MPVal.str "x")))).1
      = Except.error SessionError.expired
    ∧ (EncryptedSession.mustGet ⟨"k", none, none⟩ 5
        (some (authenticWire ⟨"k", none, none⟩ [1] [2] 0 (MPVal.str "x")))).2
      = EncryptedSession.delete
          (some (authenticWire ⟨"k", none, none⟩ [1] [2] 0 (MPVal.str "x")))
    ∧ (EncryptedSession.mustGet ⟨"k", none, none⟩ 6
        (EncryptedSession.mustGet ⟨"k", none, none⟩ 5
          (some (authenticWire ⟨"k", none, none⟩ [1] [2] 0
            (MPVal.str "x")))).2).1
      = Except.error SessionError.notFoundCookie :=
  ⟨by rfl,
    (expiredTriggersDeletion ⟨"k", none, none⟩ 5 6 _ (by rfl)).1,
    (expiredTriggersDeletion ⟨"k", none, none⟩ 5 6 _ (by rfl)).2⟩

/-! ### C5 — get collapses all failures -/

/-- C5: `get` never throws; on every failure of `mustGet` — cookie absent,
malformed box, failed decryption, expired, falsy payload — it returns the
absent value (`none`), and whenever `mustGet` succeeds it returns the same
value; the jar state is the one `mustGet` leaves. -/
theorem getCollapsesErrors (h : Handle) (now : Int) (st : Option Wire) :
    (EncryptedSession.get h now st).1
      = (EncryptedSession.mustGet h now st).1.toOption
    ∧ (EncryptedSession.get h now st).2
      = (EncryptedSession.mustGet h now st).2 := by
  unfold EncryptedSession.get
  rcases hm : EncryptedSession.mustGet h now st with ⟨r, s⟩
  cases r <;> simp [Except.toOption]

/-! ### C6 — expiry computation on write -/

/-- C6, counterexample: with max-age configured as `0` (and an absolute
expiry also configured), the claim says the inner expiry is
`now + maxAge*1000 = 100`, but `set` seals the configured absolute expiry
`7`: the truthiness test skips a zero max-age. -/
theorem expiryComputation_cex :
    (EncryptedSession.set ⟨"k", some 0, some 7⟩ 100 [1] [2]
        (MPVal.str "x")).innerExp = some 7
    ∧ (7 : Int) ≠ 100 + 0 * 1000 :=
  ⟨rfl, by decide⟩

/-- C6 (amended): on every write the inner box's absolute expiry is
`now + maxAge*1000` when a nonzero (truthy) max-age attribute is configured,
otherwise the configured absolute-expiry attribute converted to epoch
milliseconds, otherwise the maximum representable instant. -/
theorem expiryComputation (h : Handle) (now : Int) (salt iv : List Nat)
    (v : MPVal) :
    (EncryptedSession.set h now salt iv v).innerExp
      = some (specExpiry h.maxAge h.expires now) := by
  rcases h with ⟨s, ma, ex⟩
  rcases ma with _ | m
  · rcases ex with _ | e <;> rfl
  · rcases ex with _ | e <;>
      · rcases eq_or_ne m 0 with hm | hm <;>
          simp [EncryptedSession.set, Wire.innerExp, MPVal.getField,
            lookupKey, specExpiry, computeExpiresAt, expiresFallback, hm]

/-! ### C7 — expiry boundary is strict -/

/-- C7: for an authentic envelope read at time `now` with a truthy payload,
`exp = now - 1` fails with the expired error, `exp = now + 1` succeeds, and
`exp = now` also succeeds: the comparison is strictly `exp < now`. -/
theorem expiryBoundary (h : Handle) (now : Int) (salt iv : List Nat)
    (v : MPVal) (hv : v.falsy = false) :
    (EncryptedSession.mustGet h now
        (some (authenticWire h salt iv (now - 1) v))).1
      = Except.error SessionError.expired
    ∧ (EncryptedSession.mustGet h now
        (some (authenticWire h salt iv (now + 1) v))).1
      = Except.ok v
    ∧ (EncryptedSession.mustGet h now
        (some (authenticWire h salt iv now v))).1
      = Except.ok v := by
  refine ⟨?_, ?_, ?_⟩ <;> rw [mustGet_authentic]
  · rw [if_pos (by omega)]
  · rw [if_neg (by omega)]
    simp [hv]
  · rw [if_neg (by omega)]
    simp [hv]

/-- C7, witness. -/
theorem expiryBoundary_witness :
    (MPVal.str "x").falsy = false
    ∧ (EncryptedSession.mustGet ⟨"k", none, none⟩ 10
        (some (authenticWire ⟨"k", none, none⟩ [1] [2] 9 (MPVal.str "x")))).1
      = Except.error SessionError.expired
    ∧ (EncryptedSession.mustGet ⟨"k", none, none⟩ 10
        (some (authenticWire ⟨"k", none, none⟩ [1] [2] 11
          (MPVal.str "x")))).1
      = Except.ok (MPVal.str "x")
    ∧ (EncryptedSession.mustGet ⟨"k", none, none⟩ 10
        (some (authenticWire ⟨"k", none, none⟩ [1] [2] 10
          (MPVal.str "x")))).1
      = Except.ok (MPVal.str "x") :=
  ⟨rfl,
    (expiryBoundary ⟨"k", none, none⟩ 10 [1] [2] (MPVal.str "x") rfl).1,
    (expiryBoundary ⟨"k", none, none⟩ 10 [1] [2] (MPVal.str "x") rfl).2.1,
    (expiryBoundary ⟨"k", none, none⟩ 10 [1] [2] (MPVal.str "x") rfl).2.2⟩

/-! ### C8 — falsy payloads are rejected -/

/-- C8: an authentic, non-expired inner box whose decoded `val` is falsy
(`0`, the empty string, `false`, `null`) fails with the malformed error
rather than returning the payload. -/
theorem falsyValMalformed (h : Handle) (now : Int) (salt iv : List Nat)
    (e : Int) (v : MPVal) (he : ¬ e < now) (hv : v.falsy = true) :
    (EncryptedSession.mustGet h now
        (some (authenticWire h salt iv e v))).1
      = Except.error SessionError.malformedVal := by
  rw [mustGet_authentic, if_neg he, if_pos hv]

/-- C8, witness. -/
theorem falsyValMalformed_witness :
    ¬ (5 : Int) < 3
    ∧ (MPVal.int 0).falsy = true
    ∧ (EncryptedSession.mustGet ⟨"k", none, none⟩ 3
        (some (authenticWire ⟨"k", none, none⟩ [1] [2] 5 (MPVal.int 0)))).1
      = Except.error SessionError.malformedVal :=
  ⟨by decide, rfl,
    falsyValMalformed ⟨"k", none, none⟩ 3 [1] [2] 5 (MPVal.int 0)
      (by decide) rfl⟩

/-! ### C9 — read-path frame -/

/-- C9: on every invocation of `get` or `mustGet` whose outcome is not the
expired failure, the stored cookie state is unchanged; the expiry-triggered
deletion is the only read-path side effect. -/
theorem readPathFrame (h : Handle) (now : Int) (st : Option Wire)
    (hne : (EncryptedSession.mustGet h now st).1
      ≠ Except.error SessionError.expired) :
    (EncryptedSession.mustGet h now st).2 = st
    ∧ (EncryptedSession.get h now st).2 = st := by
  rcases mustGet_state h now st with ⟨h1, -⟩ | ⟨-, h2⟩
  · exact absurd h1 hne
  · exact ⟨h2, (get_mustGet h now st).2.trans h2⟩

/-- C9, witness: a successful read leaves the jar untouched. -/
theorem readPathFrame_witness :
    (EncryptedSession.mustGet ⟨"k", none, none⟩ 0
        (some (authenticWire ⟨"k", none, none⟩ [1] [2] 5 (MPVal.str "x")))).1
      ≠ Except.error SessionError.expired
    ∧ (EncryptedSession.mustGet ⟨"k", none, none⟩ 0
        (some (authenticWire ⟨"k", none, none⟩ [1] [2] 5
          (MPVal.str "x")))).2
      = some (authenticWire ⟨"k", none, none⟩ [1] [2] 5 (MPVal.str "x")) :=
  ⟨by rw [mustGet_authentic]; simp [MPVal.falsy],
    (readPathFrame ⟨"k", none, none⟩ 0 _
      (by rw [mustGet_authentic]; simp [MPVal.falsy])).1⟩

/-! ### C10 — expiry is checked before the payload -/

/-- C10: the expiry comparison precedes the payload validation: an authentic
inner box with numeric `exp` strictly before `now` and a falsy `val` fails
with the expired error (and the cookie-deletion effect), not with the
malformed error. -/
theorem expiredBeforeValCheck (h : Handle) (now : Int) (salt iv : List Nat)
    (e : Int) (v : MPVal) (he : e < now) (_hv : v.falsy = true) :
    EncryptedSession.mustGet h now (some (authenticWire h salt iv e v))
      = (Except.error SessionError.expired,
          EncryptedSession.delete (some (authenticWire h salt iv e v))) := by
  rw [mustGet_authentic, if_pos he]
  rfl

/-- C10, witness. -/
theorem expiredBeforeValCheck_witness :
    (5 : Int) < 9
    ∧ (MPVal.int 0).falsy = true
    ∧ EncryptedSession.mustGet ⟨"k", none, none⟩ 9
        (some (authenticWire ⟨"k", none, none⟩ [1] [2] 5 (MPVal.int 0)))
      = (Except.error SessionError.expired,
          EncryptedSession.delete
            (some (authenticWire ⟨"k", none, none⟩ [1] [2] 5
              (MPVal.int 0)))) :=
  ⟨by decide, rfl,
    expiredBeforeValCheck ⟨"k", none, none⟩ 9 [1] [2] 5 (MPVal.int 0)
      (by decide) rfl⟩
